import Mathlib

/-!
Verification development for the adjoint-Jacobian engine of
`pennylane_lightning_gpu` (`AdjointDiffGPU.hpp`) and its gate cache
(`GateCache.hpp`).

Shallow embedding conventions:
* the floating-point scalar type `T` (C++ `double`) is modelled as `ℚ`;
* complex numbers (`CFP_t`) are modelled as pairs `ℚ × ℚ`;
* `size_t` values are `Nat`, with the wrap-around of `x - 1` made explicit
  (`sub1_64`) where the C++ code can underflow;
* C++ exceptions are values of `PLErr`: `PLErr.abort msg` models a
  `PL_ABORT(msg)` (`LightningException`), `PLErr.outOfRange` models the
  `std::out_of_range` thrown by `std::unordered_map::at`;
* the external GPU state-vector backend (`StateVectorCudaManaged`, declared
  outside this repository) is abstracted as a parameter structure
  `SVBackend S` of pure functions over an opaque state type `S`.
-/

/-- Error values observable from the embedded code: `abort msg` models
`PL_ABORT(msg)` (a `LightningException` carrying `msg`), while `outOfRange`
models the `std::out_of_range` exception thrown by
`std::unordered_map::at` on a missing key. -/
inductive PLErr where
  | abort (msg : String)
  | outOfRange
  deriving DecidableEq, Repr

/-- One element of the operations tape: the `op_idx`-slice of the parallel
vectors held by `Pennylane::Algorithms::OpsData<T>` (`getOpsName`,
`getOpsParams`, `getOpsWires`, `getOpsInverses`).  Explicit matrices are
never read by the adjoint sweep and are omitted. -/
structure TapeOp where
  name : String
  params : List ℚ
  wires : List Nat
  inverse : Bool
  deriving DecidableEq, Repr

/-- The observable hierarchy of `AdjointDiffGPU.hpp` as a sum type:
`NamedObsGPU` (name, wires, params), `HermitianObsGPU` (row-major matrix,
wires), `TensorProdObsGPU` (member observables plus the `all_wires_` field
computed by its constructor) and `HamiltonianGPU` (coefficients and member
observables). -/
inductive ObservableGPU where
  | named (obsName : String) (wires : List Nat) (params : List ℚ)
  | hermitian (matrix : List (ℚ × ℚ)) (wires : List Nat)
  | tensorProd (obs : List ObservableGPU) (allWires : List Nat)
  | hamiltonian (coeffs : List ℚ) (obs : List ObservableGPU)
  deriving Repr

mutual

/-- Models `getWires()`: `NamedObsGPU` and `HermitianObsGPU` return their stored
wire list, `TensorProdObsGPU` returns its precomputed `all_wires_`, and
`HamiltonianGPU` collects its members' wires into an `unordered_set`, then
sorts — i.e. the sorted deduplication of the concatenation. -/
def getWires : ObservableGPU → List Nat
  | .named _ w _ => w
  | .hermitian _ w => w
  | .tensorProd _ allW => allW
  | .hamiltonian _ obsL => List.insertionSort (fun a b => a ≤ b) (getWiresList obsL).dedup

/-- Concatenation of `getWires` over a list of observables. -/
def getWiresList : List ObservableGPU → List Nat
  | [] => []
  | ob :: obs => getWires ob ++ getWiresList obs

end

/-- The `typeid` of an observable: C++ `operator==` first compares the
dynamic types of the two objects. -/
def variantTag : ObservableGPU → Nat
  | .named _ _ _ => 0
  | .hermitian _ _ => 1
  | .tensorProd _ _ => 2
  | .hamiltonian _ _ => 3

mutual

/-- Models `ObservableGPU::operator==`: `typeid(*this) == typeid(other) &&
isEqual(other)`, with each subclass's `isEqual` comparing fields
(`NamedObsGPU`: name, wires, params; `HermitianObsGPU`: matrix, wires;
`TensorProdObsGPU`: sizes then member-wise `operator!=`; `HamiltonianGPU`:
coefficient vectors then member-wise `operator!=`).  The member-wise loops
rely on the constructor invariant that a `HamiltonianGPU`'s coefficient and
observable lists have equal length (`PL_ASSERT` in the constructor). -/
def obsEq : ObservableGPU → ObservableGPU → Bool
  | .named n w p, .named n' w' p' => decide (n = n') && decide (w = w') && decide (p = p')
  | .hermitian m w, .hermitian m' w' => decide (m = m') && decide (w = w')
  | .tensorProd o _, .tensorProd o' _ => decide (o.length = o'.length) && obsListEq o o'
  | .hamiltonian c o, .hamiltonian c' o' => decide (c = c') && obsListEq o o'
  | _, _ => false

/-- Pointwise equality of parallel observable lists (the `for` loops inside
`TensorProdObsGPU::isEqual` and `HamiltonianGPU::isEqual`). -/
def obsListEq : List ObservableGPU → List ObservableGPU → Bool
  | [], _ => true
  | _, [] => true
  | a :: as, b :: bs => obsEq a b && obsListEq as bs

end

/-- The wire-collection loop of the `TensorProdObsGPU` constructor over one
member's wires: each wire already present in the accumulated set triggers
`PL_ABORT("All wires in observables must be disjoint.")`, otherwise it is
inserted. -/
def addWires (acc : List Nat) : List Nat → Except PLErr (List Nat)
  | [] => .ok acc
  | w :: ws =>
    if w ∈ acc then .error (.abort "All wires in observables must be disjoint.")
    else addWires (acc ++ [w]) ws

/-- The outer loop of the `TensorProdObsGPU` constructor: fold
`addWires` over every member observable's `getWires()`. -/
def collectWires (acc : List Nat) : List ObservableGPU → Except PLErr (List Nat)
  | [] => .ok acc
  | ob :: obs =>
    match addWires acc (getWires ob) with
    | .ok acc' => collectWires acc' obs
    | .error e => .error e

/-- The `TensorProdObsGPU` constructor: collect all member wires, aborting
on a repeated wire, then store the sorted wire set as `all_wires_`. -/
def tensorProdObsGPU (obs : List ObservableGPU) : Except PLErr ObservableGPU :=
  match collectWires [] obs with
  | .ok ws => .ok (.tensorProd obs (List.insertionSort (fun a b => a ≤ b) ws))
  | .error e => .error e

/-- Lookup in an association list modelling `std::unordered_map::find`
(first matching key wins, which also makes cons-insertion model
overwriting). -/
def lookupGate {V : Type} : List ((String × ℚ) × V) → (String × ℚ) → Option V
  | [], _ => none
  | e :: rest, k => if e.1 = k then some e.2 else lookupGate rest k

/-- The two maps of `GateCache<fp_t>`: `host_gates_` (host-side vectors)
and `device_gates_` (device buffers, modelled by the copied host data),
both keyed by `(gate name, parameter value)`. -/
structure GateCache where
  host_gates : List ((String × ℚ) × List (ℚ × ℚ))
  device_gates : List ((String × ℚ) × List (ℚ × ℚ))

/-- Models `GateCache::add_gate(gate_name, gate_param, host_data)`: stores
`host_data` in `host_gates_[key]` and copies the same data into a fresh
device buffer stored in `device_gates_[key]` (`CopyHostDataToGpu`). -/
def GateCache.add_gate (c : GateCache) (gate_name : String) (gate_param : ℚ)
    (host_data : List (ℚ × ℚ)) : GateCache :=
  ⟨((gate_name, gate_param), host_data) :: c.host_gates,
   ((gate_name, gate_param), host_data) :: c.device_gates⟩

/-- Models `GateCache::gateExists(gate_name, gate_param)`: true iff the key is
found in `host_gates_` and in `device_gates_`. -/
def GateCache.gateExists (c : GateCache) (gate_name : String) (gate_param : ℚ) : Bool :=
  (lookupGate c.host_gates (gate_name, gate_param)).isSome &&
  (lookupGate c.device_gates (gate_name, gate_param)).isSome

/-- Models `GateCache::get_gate_host(gate_name, gate_param)`:
`host_gates_[key]` via `operator[]`, which yields the stored vector, or a
default-constructed (empty) one for an absent key. -/
def GateCache.get_gate_host (c : GateCache) (gate_name : String) (gate_param : ℚ) :
    List (ℚ × ℚ) :=
  (lookupGate c.host_gates (gate_name, gate_param)).getD []

/-- The external GPU state-vector backend (`StateVectorCudaManaged<T>`,
declared outside this repository), abstracted over an opaque state type
`S`.  `applyOp name wires inverse params` models
`applyOperation(name, wires, inverse, params)`; `applyObs ob` models
`ob.applyInPlace(sv)` for an observable; `applyGen name wires adj` models
the registered generator action for `name` (each registry entry is a
single backend call); `innerProdIm sv1 sv2` models
`innerProdC_CUDA(sv1.getData(), sv2.getData(), ...).y`, the imaginary part
of the inner product that is conjugate-linear in its first argument. -/
structure SVBackend (S : Type) where
  applyOp : String → List Nat → Bool → List ℚ → S → S
  applyObs : ObservableGPU → S → S
  applyGen : String → List Nat → Bool → S → S
  innerProdIm : S → S → ℚ

/-- The key set shared by the `generator_map` and `scaling_factors` members
of `AdjointJacobianGPU` (both maps are built from the same 18 gate
labels). -/
def generatorNames : List String :=
  ["RX", "RY", "RZ", "IsingXX", "IsingYY", "IsingZZ", "CRX", "CRY", "CRZ",
   "PhaseShift", "ControlledPhaseShift",
   "SingleExcitation", "SingleExcitationMinus", "SingleExcitationPlus",
   "DoubleExcitation", "DoubleExcitationMinus", "DoubleExcitationPlus",
   "MultiRZ"]

/-- The `scaling_factors` table: `PhaseShift` and `ControlledPhaseShift`
map to `1`, every other registered gate to `-0.5`.  Only consulted for
names in `generatorNames`. -/
def scalingFactorOf (n : String) : ℚ :=
  if n = "PhaseShift" ∨ n = "ControlledPhaseShift" then 1 else -(1 / 2)

/-- Models `AdjointJacobianGPU::applyGenerator(sv, op_name, wires, adj)`:
`generator_map.at(op_name)(sv, wires, adj)` followed by
`scaling_factors.at(op_name)`.  A name missing from the registry makes
`unordered_map::at` throw `std::out_of_range`; both maps have the same
keys, so a single membership test decides both lookups. -/
def applyGenerator {S : Type} (cfg : SVBackend S) (sv : S) (op_name : String)
    (wires : List Nat) (adj : Bool) : Except PLErr (S × ℚ) :=
  if op_name ∈ generatorNames then
    .ok (cfg.applyGen op_name wires adj sv, scalingFactorOf op_name)
  else .error .outOfRange

/-- Models `AdjointJacobianGPU::updateJacobian(sv1, sv2, jac, scaling_coeff,
obs_index, param_index, tp_size)`:
`jac[obs_index * tp_size + param_index] = -2 * scaling_coeff *
innerProdC_CUDA(sv1, sv2).y` (the device-consistency guard cannot fire
inside one sweep, where every state carries the same device tag). -/
def updateJacobian {S : Type} (cfg : SVBackend S) (sv1 sv2 : S) (jac : List ℚ)
    (scaling_coeff : ℚ) (obs_index param_index tp_size : Nat) : List ℚ :=
  jac.set (obs_index * tp_size + param_index)
    (-2 * scaling_coeff * cfg.innerProdIm sv1 sv2)

/-- The `for (size_t obs_idx = 0; ...)` fan-out in `adjointJacobian` that
calls `updateJacobian` once per observable (per-observable writes touch
pairwise distinct indices, so the OpenMP fan-out equals this sequential
fold). -/
def writeJacAux {S : Type} (cfg : SVBackend S) (mu : S) (sf : ℚ) (tp_size col : Nat) :
    List S → Nat → List ℚ → List ℚ
  | [], _, jac => jac
  | h :: t, i, jac => writeJacAux cfg mu sf tp_size col t (i + 1)
      (updateJacobian cfg h mu jac sf i col tp_size)

/-- One-step wrap-around decrement of a `size_t` value:
`sub1_64 0 = 2^64 - 1` and `sub1_64 (n+1) = n` for `n + 1 < 2^64`. -/
def sub1_64 (n : Nat) : Nat := (n + (2 ^ 64 - 1)) % 2 ^ 64

/-- Modelled from the spec: `OpsData<T>::hasParams(op_idx)` lives in
`JacobianTape.hpp`, which is not part of this repository snapshot.  Per the
spec's data model, a tape operation is parametric exactly when it carries
at least one numeric parameter. -/
def hasParams (op : TapeOp) : Bool := !op.params.isEmpty

/-- Modelled from the spec: `OpsData<T>::getNumParOps()` lives in
`JacobianTape.hpp`, which is not part of this repository snapshot.  Per the
spec, trainable indices are positions among all parametric operations in
forward tape order, so the total is the count of parametric operations. -/
def numParOps (ops : List TapeOp) : Nat :=
  (ops.filter (fun op => hasParams op)).length

/-- Models `AdjointJacobianGPU::applyOperationAdj(state, operations, op_idx)`:
apply operation `op_idx` with its inverse flag toggled. -/
def applyOperationAdj {S : Type} (cfg : SVBackend S) (op : TapeOp) (s : S) : S :=
  cfg.applyOp op.name op.wires (!op.inverse) op.params s

/-- Models `AdjointJacobianGPU::applyOperations(state, operations)` with
`adj = false`: forward application of the whole tape with each operation's
own inverse flag. -/
def applyOperations {S : Type} (cfg : SVBackend S) (s : S) (ops : List TapeOp) : S :=
  ops.foldl (fun s op => cfg.applyOp op.name op.wires op.inverse op.params s) s

/-- The mutable locals of the reverse sweep of
`AdjointJacobianGPU::adjointJacobian`: the ket `λ` (`lambda`), the
per-observable bra states `H_lambda`, the scratch bra `μ` (`mu`), the
Jacobian buffer, the remaining reverse trainable-parameter iterator
(`tp_it`, as the not-yet-consumed suffix of the reversed list), the
descending column counter `trainableParamNumber`, and the position counter
`current_param_idx`. -/
structure SweepState (S : Type) where
  lam : S
  hLam : List S
  mu : S
  jac : List ℚ
  tpRev : List Nat
  tPN : Nat
  curParamIdx : Nat

/-- The reverse `for (int op_idx = ...)` loop of
`AdjointJacobianGPU::adjointJacobian`, walking the reversed tape.  Per
iteration, in source order: abort if the operation has more than one
parameter; skip `QubitStateVector` / `BasisState`; break once the
trainable iterator is exhausted; copy `λ` into `μ` and undo the operation
on `λ`; for a parametric operation whose forward position matches the
pending trainable index, apply the generator to `μ` (direction
`!inverse`), negate the coefficient for inverted operations, write one
Jacobian entry per observable, advance the cursor (the `std::out_of_range`
of an unregistered generator name escapes here); decrement
`current_param_idx` for every parametric operation; finally undo the
operation on every bra state. -/
def sweepLoop {S : Type} (cfg : SVBackend S) (tp_size : Nat) :
    List TapeOp → SweepState S → SweepState S × Option PLErr
  | [], st => (st, none)
  | op :: rest, st =>
    if op.params.length > 1 then
      (st, some (PLErr.abort
        "The operation is not supported using the adjoint differentiation method"))
    else if op.name = "QubitStateVector" ∨ op.name = "BasisState" then
      sweepLoop cfg tp_size rest st
    else
      match st.tpRev with
      | [] => (st, none)
      | tpH :: tpT =>
        let muNew := st.lam
        let lamNew := applyOperationAdj cfg op st.lam
        if hasParams op then
          if st.curParamIdx = tpH then
            match applyGenerator cfg muNew op.name op.wires (!op.inverse) with
            | .error e => ({ st with mu := muNew, lam := lamNew }, some e)
            | .ok (muG, sf0) =>
              let sf := sf0 * (if op.inverse then -1 else 1)
              let jacNew := writeJacAux cfg muG sf tp_size st.tPN st.hLam 0 st.jac
              sweepLoop cfg tp_size rest
                ⟨lamNew, st.hLam.map (applyOperationAdj cfg op), muG, jacNew,
                 tpT, sub1_64 st.tPN, sub1_64 st.curParamIdx⟩
          else
            sweepLoop cfg tp_size rest
              ⟨lamNew, st.hLam.map (applyOperationAdj cfg op), muNew, st.jac,
               st.tpRev, st.tPN, sub1_64 st.curParamIdx⟩
        else
          sweepLoop cfg tp_size rest
            ⟨lamNew, st.hLam.map (applyOperationAdj cfg op), muNew, st.jac,
             st.tpRev, st.tPN, st.curParamIdx⟩

/-- Models `AdjointJacobianGPU::adjointJacobian`, returning the final sweep
state together with the error outcome (`none` = normal return).  The
initial `μ` buffer is freshly allocated in the source and is always
overwritten before its first read, so it is initialised here to `λ`. -/
def adjointJacobianRun {S : Type} (cfg : SVBackend S) (ref_data : S) (jac : List ℚ)
    (obs : List ObservableGPU) (ops : List TapeOp) (trainableParams : List Nat)
    (apply_operations : Bool) : SweepState S × Option PLErr :=
  if trainableParams = [] then
    (⟨ref_data, [], ref_data, jac, [], 0, 0⟩,
     some (PLErr.abort "No trainable parameters provided."))
  else
    let lam := if apply_operations then applyOperations cfg ref_data ops else ref_data
    let hL := obs.map (fun ob => cfg.applyObs ob lam)
    let st0 : SweepState S :=
      ⟨lam, hL, lam, jac, trainableParams.reverse,
       trainableParams.length - 1, sub1_64 (numParOps ops)⟩
    sweepLoop cfg trainableParams.length ops.reverse st0

/-- Models `AdjointJacobianGPU::adjointJacobian` as observed by the caller: the
contents of the preallocated Jacobian buffer, and the error outcome. -/
def adjointJacobian {S : Type} (cfg : SVBackend S) (ref_data : S) (jac : List ℚ)
    (obs : List ObservableGPU) (ops : List TapeOp) (trainableParams : List Nat)
    (apply_operations : Bool) : List ℚ × Option PLErr :=
  let r := adjointJacobianRun cfg ref_data jac obs ops trainableParams apply_operations
  (r.1.jac, r.2)

/-- Shard boundary `first` of shard `i` in `batchAdjointJacobian`:
`std::ceil(obs.size() * i / num_chunks)` — the division is already integer
(`size_t`) division, so `std::ceil` is the identity and the boundary is
the floor. -/
def chunkFirst (n num_chunks i : Nat) : Nat := n * i / num_chunks

/-- One past the `last` boundary of shard `i`:
`last = std::ceil((obs.size() * (i+1) / num_chunks) - 1)` in `size_t`
arithmetic, i.e. `last = sub1_64 (chunkLastP1 ...)`, and every use of
`last` in the source is of the form `last + 1` or `last - first + 1`,
which reduce modulo `2^64` to this value and its distance from
`first`. -/
def chunkLastP1 (n num_chunks i : Nat) : Nat := n * (i + 1) / num_chunks

/-- The merge loop over one shard's future result:
`for j < jac_rows.size(): jac.at(first + j) = jac_rows[j]` — note the flat
offset `first + j`, not `first * tp_size + j`. -/
def overwriteFrom (jac : List ℚ) (first : Nat) : List ℚ → Nat → List ℚ
  | [], _ => jac
  | v :: rest, j => overwriteFrom (jac.set (first + j) v) first rest (j + 1)

/-- The sequential merge over all shard futures, stopping at the first
shard whose worker failed (its promise is never fulfilled in the
source). -/
def mergeShards (jac : List ℚ) : List (Nat × (List ℚ × Option PLErr)) → List ℚ × Option PLErr
  | [] => (jac, none)
  | (first, (rows, none)) :: rest => mergeShards (overwriteFrom jac first rows 0) rest
  | (_, (_, some e)) :: _ => (jac, some e)

/-- Models `AdjointJacobianGPU::batchAdjointJacobian`: split the observable list
into `num_chunks = num_gpus` contiguous shards with the ceiling-expression
boundaries above, run `adjointJacobian` per shard on a zero-filled local
block of size `(last - first + 1) * trainableParams.size()`, then merge
each shard's rows into the caller's buffer at flat offsets `first + j`.
The device-pool size (`DevicePool::getTotalDevices`, external) is the
parameter `num_gpus`; shard workers are data-independent, so the threaded
execution equals this per-shard evaluation. -/
def batchAdjointJacobian {S : Type} (cfg : SVBackend S) (ref_data : S) (jac : List ℚ)
    (obs : List ObservableGPU) (ops : List TapeOp) (trainableParams : List Nat)
    (apply_operations : Bool) (num_gpus : Nat) : List ℚ × Option PLErr :=
  let n := obs.length
  let shards := (List.range num_gpus).map (fun i =>
    let first := chunkFirst n num_gpus i
    let len := chunkLastP1 n num_gpus i - first
    let jacLocal := List.replicate (len * trainableParams.length) (0 : ℚ)
    (first, adjointJacobian cfg ref_data jacLocal ((obs.drop first).take len)
      ops trainableParams apply_operations))
  mergeShards jac shards

/-- The body of the `adj_lambda` worker thread in `batchAdjointJacobian`,
for a pool holding at least one free device (modelled as the list of free
device ids; `DevicePool` itself is external, its acquire/release contract
taken from the spec).  The worker acquires the front device, runs the
shard sweep on it, and only on normal completion fulfils its promise and
calls `releaseDevice`; an exception from the sweep propagates out of the
thread body, skipping both.  Returns (pool after the worker ends, promise
value if fulfilled, error outcome). -/
def adj_lambda (d : Nat) (pool : List Nat) (run : Nat → List ℚ × Option PLErr) :
    List Nat × Option (List ℚ) × Option PLErr :=
  match run d with
  | (jacLocal, none) => (pool ++ [d], some jacLocal, none)
  | (_, some e) => (pool, none, some e)

/-- A concrete executable instance of the backend interface over `S = ℚ`,
used to evaluate the engine on explicit inputs.  The arithmetic is chosen
so that distinct call histories yield distinct state values. -/
def toyApplyOp (_name : String) (wires : List Nat) (inv : Bool) (params : List ℚ)
    (s : ℚ) : ℚ :=
  2 * s + (wires.sum : ℚ) + (if inv then 1 else 0) + params.sum + 1

/-- Toy observable application for `toyCfg`. -/
def toyApplyObs (ob : ObservableGPU) (s : ℚ) : ℚ := 3 * s + ((getWires ob).sum : ℚ) + 1

/-- Toy generator application for `toyCfg`. -/
def toyApplyGen (_name : String) (wires : List Nat) (adj : Bool) (s : ℚ) : ℚ :=
  5 * s + (wires.sum : ℚ) + (if adj then 1 else 0) + 2

/-- Toy inner-product imaginary part for `toyCfg`. -/
def toyInnerProdIm (a b : ℚ) : ℚ := a + 7 * b

def toyCfg : SVBackend ℚ := ⟨toyApplyOp, toyApplyObs, toyApplyGen, toyInnerProdIm⟩

/-- Two single-wire named observables used in concrete evaluations. -/
def obsPair : List ObservableGPU :=
  [ObservableGPU.named "A" [0] [], ObservableGPU.named "B" [1] []]

/-- A two-operation tape of trainable `RX` rotations. -/
def opsRXRX : List TapeOp :=
  [TapeOp.mk "RX" [1] [0] false, TapeOp.mk "RX" [2] [0] false]

/-- A tape whose first (earliest) operation carries two numeric
parameters, followed by two `RX` rotations; parametric forward positions
are `0` (the two-parameter operation), `1` and `2`. -/
def opsMultiFirst : List TapeOp :=
  [TapeOp.mk "Rot" [1, 2] [0] false,
   TapeOp.mk "RX" [1] [0] false, TapeOp.mk "RX" [2] [0] false]

/-- C3: for every backend, reference state, preallocated buffer, observable
list, tape and apply-tape-first flag, calling `adjointJacobian` with an
empty trainable-parameter list fails with the invalid-argument abort
`"No trainable parameters provided."` and returns the caller's buffer
completely unchanged. -/
theorem adjointJacobian_empty_trainable {S : Type} (cfg : SVBackend S) (ref : S)
    (jac : List ℚ) (obs : List ObservableGPU) (ops : List TapeOp) (b : Bool) :
    adjointJacobian cfg ref jac obs ops [] b =
      (jac, some (PLErr.abort "No trainable parameters provided.")) := by
  simp [adjointJacobian, adjointJacobianRun]

/-- C8: equality of two Named observables holds iff their names, wire lists
and parameter lists match exactly, and equality between observables of
different concrete variants (different `typeid`s) is always false. -/
theorem obsEq_named_iff_and_cross_variant_ne :
    (∀ (n n' : String) (w w' : List Nat) (p p' : List ℚ),
      obsEq (ObservableGPU.named n w p) (ObservableGPU.named n' w' p') = true ↔
        n = n' ∧ w = w' ∧ p = p') ∧
    (∀ o1 o2 : ObservableGPU, variantTag o1 ≠ variantTag o2 → obsEq o1 o2 = false) := by
  constructor
  · intro n n' w w' p p'
    simp [obsEq, and_assoc]
  · intro o1 o2 h
    cases o1 <;> cases o2 <;> first
      | rfl
      | exact absurd rfl h

/-- Witness for `obsEq_named_iff_and_cross_variant_ne`: a Named `PauliZ`
observable equals an identical Named observable, and is unequal to a
Hermitian observable with the numerically identical Pauli-Z matrix. -/
theorem obsEq_named_witness :
    (obsEq (ObservableGPU.named "PauliZ" [0] []) (ObservableGPU.named "PauliZ" [0] []) = true ↔
      "PauliZ" = "PauliZ" ∧ [0] = ([0] : List Nat) ∧ ([] : List ℚ) = []) ∧
    obsEq (ObservableGPU.named "PauliZ" [0] [])
      (ObservableGPU.hermitian [(1, 0), (0, 0), (0, 0), (-1, 0)] [0]) = false :=
  ⟨obsEq_named_iff_and_cross_variant_ne.1 "PauliZ" "PauliZ" [0] [0] [] [],
   obsEq_named_iff_and_cross_variant_ne.2 _ _ (by decide)⟩

/-- C9 counterexample: applying the generator of the unregistered gate name
`"Hadamard"` fails with the `std::out_of_range` of `unordered_map::at`,
which is not the unsupported-operation abort used elsewhere by the adjoint
method — refuting the claim that the failure is an unsupported-operation
error. -/
theorem applyGenerator_unregistered_cex :
    applyGenerator toyCfg 0 "Hadamard" [0] true = .error PLErr.outOfRange ∧
    PLErr.outOfRange ≠
      PLErr.abort
        "The operation is not supported using the adjoint differentiation method" := by
  exact ⟨rfl, by simp⟩

/-- C9 amended: for every gate name not present in the generator registry,
`applyGenerator` fails — but with the out-of-range lookup error of
`unordered_map::at`, not an unsupported-operation abort. -/
theorem applyGenerator_unregistered {S : Type} (cfg : SVBackend S) (sv : S)
    (name : String) (wires : List Nat) (adj : Bool) (h : name ∉ generatorNames) :
    applyGenerator cfg sv name wires adj = .error PLErr.outOfRange := by
  simp [applyGenerator, h]

/-- Witness for `applyGenerator_unregistered` at the unregistered name
`"QubitUnitary"`. -/
theorem applyGenerator_unregistered_witness :
    applyGenerator toyCfg 0 "QubitUnitary" [0] false = .error PLErr.outOfRange :=
  applyGenerator_unregistered toyCfg 0 "QubitUnitary" [0] false (by decide)

/-- C10: after `add_gate name param matrix`, `gateExists name param` holds
and `get_gate_host name param` returns exactly the inserted matrix; and
`gateExists` is true exactly when the key is present in both the host-side
and the device-side cache. -/
theorem gateCache_add_gate_spec :
    (∀ (c : GateCache) (n : String) (p : ℚ) (d : List (ℚ × ℚ)),
      (c.add_gate n p d).gateExists n p = true ∧ (c.add_gate n p d).get_gate_host n p = d) ∧
    (∀ (c : GateCache) (n : String) (p : ℚ),
      c.gateExists n p = true ↔
        (lookupGate c.host_gates (n, p)).isSome ∧
        (lookupGate c.device_gates (n, p)).isSome) := by
  constructor
  · intro c n p d
    simp [GateCache.add_gate, GateCache.gateExists, GateCache.get_gate_host, lookupGate]
  · intro c n p
    simp [GateCache.gateExists]

/-- C6 counterexample: a shard worker whose sweep fails (here: a genuine
sweep failure, the empty-trainable-parameter abort) ends without releasing
its acquired device — the pool that held only device `5` is left empty —
refuting the claim that the device is released on every exit path. -/
theorem adj_lambda_error_leaks_device_cex :
    adj_lambda 5 [] (fun _ => adjointJacobian toyCfg 0 [] [] [] [] false) =
      ([], none, some (PLErr.abort "No trainable parameters provided.")) ∧
    (5 : Nat) ∉ ([] : List Nat) := ⟨rfl, by simp⟩

/-- C6 amended: a shard worker releases its device (appending it back to
the pool) and fulfils its promise exactly on the normal exit path, i.e.
whenever the sweep it runs completes without error; on an error exit the
release is skipped. -/
theorem adj_lambda_releases_on_success (d : Nat) (pool : List Nat)
    (run : Nat → List ℚ × Option PLErr) (jl : List ℚ) (h : run d = (jl, none)) :
    adj_lambda d pool run = (pool ++ [d], some jl, none) ∧
    d ∈ (adj_lambda d pool run).1 := by
  simp [adj_lambda, h]

/-- Witness for `adj_lambda_releases_on_success`: a worker on device `3`
whose sweep succeeds returns the device to the pool. -/
theorem adj_lambda_releases_on_success_witness :
    adj_lambda 3 [7] (fun _ => ([42], none)) = ([7, 3], some [42], none) :=
  (adj_lambda_releases_on_success 3 [7] (fun _ => ([42], none)) [42] rfl).1

/-- Helper: membership in the concatenated member wire lists. -/
theorem mem_getWiresList (w : Nat) : ∀ obsL : List ObservableGPU,
    w ∈ getWiresList obsL ↔ ∃ ob ∈ obsL, w ∈ getWires ob := by
  intro obsL
  induction obsL with
  | nil => simp [getWiresList]
  | cons ob obs ih => simp [getWiresList, ih]

/-- Helper: the constructor's inner wire loop succeeds on a duplicate-free
extension and returns the extended accumulator. -/
theorem addWires_ok : ∀ (ws acc : List Nat), (acc ++ ws).Nodup →
    addWires acc ws = .ok (acc ++ ws) := by
  intro ws
  induction ws with
  | nil => intro acc _; simp [addWires]
  | cons w ws ih =>
    intro acc h
    have hw : w ∉ acc := by
      rw [List.nodup_append] at h
      exact fun hmem => h.2.2 hmem (List.mem_cons_self w ws)
    have h' : (acc ++ [w] ++ ws).Nodup := by simpa [List.append_assoc] using h
    simpa [addWires, hw, List.append_assoc] using ih (acc ++ [w]) h'

/-- Helper: the constructor's inner wire loop aborts when the extension
introduces a duplicate. -/
theorem addWires_error : ∀ (ws acc : List Nat), acc.Nodup → ¬(acc ++ ws).Nodup →
    addWires acc ws = .error (.abort "All wires in observables must be disjoint.") := by
  intro ws
  induction ws with
  | nil => intro acc hacc h; simp at h; exact absurd hacc h
  | cons w ws ih =>
    intro acc hacc h
    by_cases hw : w ∈ acc
    · simp [addWires, hw]
    · have hacc' : (acc ++ [w]).Nodup := by
        rw [List.nodup_append]
        refine ⟨hacc, List.nodup_singleton w, fun a ha haw => hw ?_⟩
        rw [List.mem_singleton] at haw
        rwa [haw] at ha
      have h' : ¬(acc ++ [w] ++ ws).Nodup := by
        simpa [List.append_assoc] using h
      simp [addWires, hw, ih (acc ++ [w]) hacc' h']

/-- Helper: the constructor's outer loop succeeds iff the concatenated
wires remain duplicate-free, success case. -/
theorem collectWires_ok : ∀ (obsL : List ObservableGPU) (acc : List Nat),
    (acc ++ getWiresList obsL).Nodup →
    collectWires acc obsL = .ok (acc ++ getWiresList obsL) := by
  intro obsL
  induction obsL with
  | nil => intro acc h; simp [collectWires, getWiresList]
  | cons ob obs ih =>
    intro acc h
    have hsub : (acc ++ getWires ob).Sublist (acc ++ getWires ob ++ getWiresList obs) :=
      List.sublist_append_left _ _
    have h1 : (acc ++ getWires ob).Nodup := by
      refine List.Nodup.sublist hsub ?_
      simpa [getWiresList, List.append_assoc] using h
    have h2 : (acc ++ getWires ob ++ getWiresList obs).Nodup := by
      simpa [getWiresList, List.append_assoc] using h
    simp [collectWires, addWires_ok (getWires ob) acc h1, ih (acc ++ getWires ob) h2,
      getWiresList, List.append_assoc]

/-- Helper: the constructor's outer loop aborts when the concatenated
wires contain a duplicate. -/
theorem collectWires_error : ∀ (obsL : List ObservableGPU) (acc : List Nat),
    acc.Nodup → ¬(acc ++ getWiresList obsL).Nodup →
    collectWires acc obsL = .error (.abort "All wires in observables must be disjoint.") := by
  intro obsL
  induction obsL with
  | nil => intro acc hacc h; simp [getWiresList] at h; exact absurd hacc h
  | cons ob obs ih =>
    intro acc hacc h
    by_cases h1 : (acc ++ getWires ob).Nodup
    · have h2 : ¬(acc ++ getWires ob ++ getWiresList obs).Nodup := by
        simpa [getWiresList, List.append_assoc] using h
      simp [collectWires, addWires_ok (getWires ob) acc h1, ih (acc ++ getWires ob) h1 h2]
    · simp [collectWires, addWires_error (getWires ob) acc hacc h1]

/-- C7 counterexample: a tensor product of a single member whose own wire
list repeats wire `0` aborts with the disjoint-wires configuration error,
although no two (distinct) member observables share a wire — the list of
members is pairwise wire-disjoint — refuting the claimed "if and only
if". -/
theorem tensorProd_single_member_cex :
    tensorProdObsGPU [ObservableGPU.named "PauliZ" [0, 0] []] =
      .error (.abort "All wires in observables must be disjoint.") ∧
    List.Pairwise (fun a b => ∀ w ∈ getWires a, w ∉ getWires b)
      [ObservableGPU.named "PauliZ" [0, 0] []] :=
  ⟨rfl, by simp⟩

/-- C7 amended: `TensorProdObsGPU` construction fails with the
configuration error iff some wire occurs more than once in the
concatenation of the members' wire lists (two members sharing a wire, or
one member repeating a wire); when that concatenation is duplicate-free,
construction succeeds and `getWires()` on the result is the sorted union
of the members' wires. -/
theorem tensorProd_wires_spec (obsL : List ObservableGPU) :
    ((getWiresList obsL).Nodup →
      tensorProdObsGPU obsL =
        .ok (.tensorProd obsL (List.insertionSort (fun a b => a ≤ b) (getWiresList obsL))) ∧
      getWires (ObservableGPU.tensorProd obsL
          (List.insertionSort (fun a b => a ≤ b) (getWiresList obsL))) =
        List.insertionSort (fun a b => a ≤ b) (getWiresList obsL) ∧
      (List.insertionSort (fun a b => a ≤ b) (getWiresList obsL)).Sorted (· ≤ ·) ∧
      (∀ w, w ∈ List.insertionSort (fun a b => a ≤ b) (getWiresList obsL) ↔
        ∃ ob ∈ obsL, w ∈ getWires ob)) ∧
    (¬(getWiresList obsL).Nodup →
      tensorProdObsGPU obsL = .error (.abort "All wires in observables must be disjoint.")) := by
  constructor
  · intro h
    refine ⟨?_, rfl, List.sorted_insertionSort _ _, ?_⟩
    · have := collectWires_ok obsL [] (by simpa using h)
      simp [tensorProdObsGPU, this]
    · intro w
      rw [List.mem_insertionSort]
      exact mem_getWiresList w obsL
  · intro h
    have := collectWires_error obsL [] List.nodup_nil (by simpa using h)
    simp [tensorProdObsGPU, this]

/-- Witness for `tensorProd_wires_spec`: two members on disjoint wires
`[0]` and `[2, 1]` construct successfully with sorted union `[0, 1, 2]`. -/
theorem tensorProd_wires_spec_witness :
    tensorProdObsGPU [ObservableGPU.named "PauliX" [0] [], ObservableGPU.named "PauliY" [2, 1] []] =
      .ok (.tensorProd
        [ObservableGPU.named "PauliX" [0] [], ObservableGPU.named "PauliY" [2, 1] []]
        [0, 1, 2]) := by
  have h := (tensorProd_wires_spec
    [ObservableGPU.named "PauliX" [0] [], ObservableGPU.named "PauliY" [2, 1] []]).1
    (by simp [getWiresList, getWires])
  exact h.1.trans (by rfl)

/-- Helper: the per-observable Jacobian fan-out leaves every index below
its write window untouched. -/
theorem writeJacAux_get_lt {S : Type} (cfg : SVBackend S) (mu : S) (sf : ℚ)
    (ts col : Nat) : ∀ (hL : List S) (i0 : Nat) (jac : List ℚ) (k : Nat),
    k < i0 * ts + col →
    (writeJacAux cfg mu sf ts col hL i0 jac).get? k = jac.get? k := by
  intro hL
  induction hL with
  | nil => intro i0 jac k _; simp [writeJacAux]
  | cons h t ih =>
    intro i0 jac k hk
    have hk' : k < (i0 + 1) * ts + col := by
      have : i0 * ts ≤ (i0 + 1) * ts := Nat.mul_le_mul_right ts (Nat.le_succ i0)
      omega
    rw [writeJacAux, ih (i0 + 1) _ k hk', updateJacobian,
      List.get?_set_ne _ _ (Nat.ne_of_gt hk)]

/-- Helper: after the per-observable fan-out, the cell of observable `i`
in column `col` holds `-2 * sf * innerProdIm (H_i) mu`. -/
theorem writeJacAux_get_hit {S : Type} (cfg : SVBackend S) (mu : S) (sf : ℚ)
    (ts col : Nat) (hts : 0 < ts) : ∀ (hL : List S) (i0 : Nat) (jac : List ℚ)
    (i : Nat) (hi : i < hL.length), (i0 + i) * ts + col < jac.length →
    (writeJacAux cfg mu sf ts col hL i0 jac).get? ((i0 + i) * ts + col) =
      some (-2 * sf * cfg.innerProdIm (hL.get ⟨i, hi⟩) mu) := by
  intro hL
  induction hL with
  | nil => intro i0 jac i hi; exact absurd hi (by simp)
  | cons h t ih =>
    intro i0 jac i hi hlen
    match i with
    | 0 =>
      have hlt : i0 * ts + col < (i0 + 1) * ts + col := by
        have : i0 * ts + ts ≤ (i0 + 1) * ts := by
          rw [Nat.succ_mul]
        omega
      rw [Nat.add_zero] at hlen ⊢
      rw [writeJacAux, writeJacAux_get_lt cfg mu sf ts col t (i0 + 1) _ _ hlt,
        updateJacobian, List.get?_set_eq_of_lt _ hlen]
      rfl
    | j + 1 =>
      have hj : (i0 + (j + 1)) * ts + col = ((i0 + 1) + j) * ts + col := by ring_nf
      rw [writeJacAux, hj,
        ih (i0 + 1) _ j (by simpa using hi) (by simp [updateJacobian]; omega)]
      rfl

/-- C2: one reverse-sweep step on a parametric operation whose forward
position matches the pending trainable index: the generator action is
applied to the scratch bra `μ` (direction composed with the operation's
inverse flag), the scaling coefficient is negated for inverted operations,
every observable `i` receives `Jacobian[i * tp_size + col] =
-2 * c * Im ⟨H_i λ | μ⟩` with `col` the current descending trainable
column, the cursor advances, and the walk continues with the operation
undone on `λ` and on every bra state. -/
theorem sweep_matched_trainable_step {S : Type} (cfg : SVBackend S) (ts : Nat)
    (op : TapeOp) (rest : List TapeOp) (st : SweepState S) (θ : ℚ) (tpH : Nat)
    (tpT : List Nat) (hpar : op.params = [θ])
    (hq : op.name ≠ "QubitStateVector") (hb : op.name ≠ "BasisState")
    (htp : st.tpRev = tpH :: tpT) (hmatch : st.curParamIdx = tpH)
    (hgen : op.name ∈ generatorNames) (hts : 0 < ts) :
    sweepLoop cfg ts (op :: rest) st =
      sweepLoop cfg ts rest
        ⟨applyOperationAdj cfg op st.lam, st.hLam.map (applyOperationAdj cfg op),
         cfg.applyGen op.name op.wires (!op.inverse) st.lam,
         writeJacAux cfg (cfg.applyGen op.name op.wires (!op.inverse) st.lam)
           (scalingFactorOf op.name * (if op.inverse then -1 else 1)) ts st.tPN st.hLam 0 st.jac,
         tpT, sub1_64 st.tPN, sub1_64 st.curParamIdx⟩ ∧
    ∀ i, ∀ hi : i < st.hLam.length, i * ts + st.tPN < st.jac.length →
      (writeJacAux cfg (cfg.applyGen op.name op.wires (!op.inverse) st.lam)
          (scalingFactorOf op.name * (if op.inverse then -1 else 1)) ts st.tPN st.hLam 0
          st.jac).get? (i * ts + st.tPN) =
        some (-2 * (scalingFactorOf op.name * (if op.inverse then -1 else 1)) *
          cfg.innerProdIm (st.hLam.get ⟨i, hi⟩)
            (cfg.applyGen op.name op.wires (!op.inverse) st.lam)) := by
  constructor
  · rw [sweepLoop]
    simp [hpar, hq, hb, htp, hmatch, hgen, applyGenerator, hasParams]
  · intro i hi hlen
    have h := writeJacAux_get_hit cfg
      (cfg.applyGen op.name op.wires (!op.inverse) st.lam)
      (scalingFactorOf op.name * (if op.inverse then -1 else 1)) ts st.tPN hts
      st.hLam 0 st.jac i hi (by simpa using hlen)
    simpa using h

/-- Witness for `sweep_matched_trainable_step`: a matched step on a
trainable `RX` with two bra states and trainable column `0` fills the
column cells with `-2 * (-1/2) * Im ⟨H_i λ | μ⟩`. -/
theorem sweep_matched_trainable_step_witness :
    (sweepLoop toyCfg 2 [TapeOp.mk "RX" [1] [0] false]
      ⟨(0 : ℚ), [1, 2], 0, [0, 0, 0, 0], [0], 0, 0⟩).1.jac = [22, 0, 23, 0] := by
  have h := sweep_matched_trainable_step toyCfg 2 (TapeOp.mk "RX" [1] [0] false) []
    (⟨(0 : ℚ), [1, 2], 0, [0, 0, 0, 0], [0], 0, 0⟩ : SweepState ℚ) 1 0 []
    rfl (by decide) (by decide) rfl rfl (by decide) (by decide)
  rw [h.1]
  norm_num +decide [sweepLoop, writeJacAux, updateJacobian, scalingFactorOf,
    applyOperationAdj, toyCfg, toyApplyOp, toyApplyGen, toyInnerProdIm, List.set]

/-- C4: (a) one reverse-sweep step on a parametric operation whose forward
position does not match the pending trainable index decrements the
parametric-operation counter but performs no generator application and no
Jacobian write (the walk continues with only the adjoint undo applied to
`λ` and to every bra state); (b) once the trainable cursor is exhausted
the walk performs no further state change at all — the final sweep state
is exactly the state at exhaustion, so earlier tape operations are not
undone on `λ` or on any bra state. -/
theorem sweep_nonmatching_and_exhausted :
    (∀ {S : Type} (cfg : SVBackend S) (ts : Nat) (op : TapeOp) (rest : List TapeOp)
      (st : SweepState S) (θ : ℚ) (tpH : Nat) (tpT : List Nat),
      op.params = [θ] → op.name ≠ "QubitStateVector" → op.name ≠ "BasisState" →
      st.tpRev = tpH :: tpT → st.curParamIdx ≠ tpH →
      sweepLoop cfg ts (op :: rest) st =
        sweepLoop cfg ts rest
          ⟨applyOperationAdj cfg op st.lam, st.hLam.map (applyOperationAdj cfg op),
           st.lam, st.jac, st.tpRev, st.tPN, sub1_64 st.curParamIdx⟩) ∧
    (∀ {S : Type} (cfg : SVBackend S) (ts : Nat) (ops : List TapeOp)
      (st : SweepState S), st.tpRev = [] → (sweepLoop cfg ts ops st).1 = st) := by
  constructor
  · intro S cfg ts op rest st θ tpH tpT hpar hq hb htp hmatch
    rw [sweepLoop]
    simp [hpar, hq, hb, htp, hmatch, hasParams]
  · intro S cfg ts ops st htp
    induction ops with
    | nil => simp [sweepLoop]
    | cons op rest ih =>
      by_cases h1 : op.params.length > 1
      · simp [sweepLoop, h1]
      · by_cases h2 : op.name = "QubitStateVector" ∨ op.name = "BasisState"
        · simpa [sweepLoop, h1, h2] using ih
        · simp [sweepLoop, h1, h2, htp]

/-- Witness for `sweep_nonmatching_and_exhausted`: a non-matching
parametric step (pending index `5`, position `7`) leaves the Jacobian at
`[0]` and decrements the counter; an exhausted cursor leaves the whole
state unchanged. -/
theorem sweep_nonmatching_and_exhausted_witness :
    (sweepLoop toyCfg 1 [TapeOp.mk "RX" [1] [0] false]
      ⟨(0 : ℚ), [1], 0, [0], [5], 0, 7⟩).1.jac = [0] ∧
    (sweepLoop toyCfg 1 [TapeOp.mk "RX" [1] [0] false]
      ⟨(0 : ℚ), [1], 0, [0], [], 0, 7⟩).1 = ⟨(0 : ℚ), [1], 0, [0], [], 0, 7⟩ := by
  constructor
  · have h := sweep_nonmatching_and_exhausted.1 toyCfg 1 (TapeOp.mk "RX" [1] [0] false) []
      (⟨(0 : ℚ), [1], 0, [0], [5], 0, 7⟩ : SweepState ℚ) 1 5 [] rfl (by decide) (by decide)
      rfl (by decide)
    rw [h]
    simp [sweepLoop]
  · exact sweep_nonmatching_and_exhausted.2 toyCfg 1 _ _ rfl

/-- C5 counterexample: a tape that contains a two-parameter operation (at
forward position 0, before the trainable region) completes the Jacobian
computation with no error at all, because the reverse walk breaks at
cursor exhaustion before examining that operation — refuting the claim
that every such tape fails with an unsupported-operation error raised
before any device work. -/
theorem multiparam_unreached_no_error_cex :
    opsMultiFirst.any (fun op => decide (op.params.length > 1)) = true ∧
    (adjointJacobian toyCfg 0 [0] [ObservableGPU.named "A" [0] []]
      opsMultiFirst [2] false).2 = none :=
  ⟨by decide, by rfl⟩

/-- C5 amended: a multi-parameter operation aborts the sweep with the
unsupported-operation error exactly when the reverse walk reaches it (the
check is the first statement of the loop body), and the abort leaves the
sweep state — including all Jacobian entries already written for trainable
parameters later in the tape — as it stood at that point; device work has
already started by then. -/
theorem sweep_multiparam_abort {S : Type} (cfg : SVBackend S) (ts : Nat)
    (op : TapeOp) (rest : List TapeOp) (st : SweepState S)
    (h : op.params.length > 1) :
    sweepLoop cfg ts (op :: rest) st =
      (st, some (PLErr.abort
        "The operation is not supported using the adjoint differentiation method")) := by
  rw [sweepLoop]
  simp [h]

/-- Witness for `sweep_multiparam_abort` at a concrete two-parameter
operation. -/
theorem sweep_multiparam_abort_witness :
    sweepLoop toyCfg 1 [TapeOp.mk "Rot" [1, 2] [0] false]
      ⟨(0 : ℚ), [], 0, [], [], 0, 0⟩ =
      (⟨(0 : ℚ), [], 0, [], [], 0, 0⟩, some (PLErr.abort
        "The operation is not supported using the adjoint differentiation method")) :=
  sweep_multiparam_abort toyCfg 1 (TapeOp.mk "Rot" [1, 2] [0] false) []
    (⟨(0 : ℚ), [], 0, [], [], 0, 0⟩ : SweepState ℚ) (by decide)

/-- C1 (failing input): with 2 devices, 2 observables and 2 trainable
parameters, the batched entrypoint merges the second shard's Jacobian rows
at flat offsets `first + j = 1, 2` instead of the row-major offsets
`first * tp_size + j = 2, 3`, overwriting the first shard's second entry
and leaving the last cell untouched: single-device computes
`[167, 22, 169, 23]` while the batch computes `[167, 169, 23, 0]`. -/
theorem batchAdjointJacobian_merge_bug :
    adjointJacobian toyCfg 0 [0, 0, 0, 0] obsPair opsRXRX [0, 1] false =
      ([167, 22, 169, 23], none) ∧
    batchAdjointJacobian toyCfg 0 [0, 0, 0, 0] obsPair opsRXRX [0, 1] false 2 =
      ([167, 169, 23, 0], none) ∧
    ([167, 169, 23, 0] : List ℚ) ≠ [167, 22, 169, 23] := by
  refine ⟨?_, ?_, ?_⟩
  · norm_num +decide [adjointJacobian, adjointJacobianRun, applyOperations, sweepLoop,
      applyGenerator, applyOperationAdj, writeJacAux, updateJacobian, hasParams, numParOps,
      sub1_64, generatorNames, scalingFactorOf, toyCfg, toyApplyOp, toyApplyObs, toyApplyGen,
      toyInnerProdIm, getWires, obsPair, opsRXRX]
  · norm_num +decide [batchAdjointJacobian, mergeShards, overwriteFrom, chunkFirst, chunkLastP1,
      adjointJacobian, adjointJacobianRun, applyOperations, sweepLoop, applyGenerator,
      applyOperationAdj, writeJacAux, updateJacobian, hasParams, numParOps, sub1_64,
      generatorNames, scalingFactorOf, toyCfg, toyApplyOp, toyApplyObs, toyApplyGen,
      toyInnerProdIm, getWires, obsPair, opsRXRX, List.range_succ]
  · norm_num
